import Mathlib

/-!
# AVRTimer1: a shallow embedding of `AVRTimer1Lib.cpp` / `AVRTimer1Lib.h`

The library drives the 16-bit Timer1 of an ATmega in normal mode. The target is an
8-bit AVR: `byte` is 8 bits, `int` and `unsigned short` are 16 bits, `long` and
`unsigned long` are 32 bits. Machine integers are natural numbers (integers for the signed
`long`), with the reduction modulo `2^w` written out wherever the C code converts or can
overflow.

Hardware registers and the three static routing slots are the fields of one state record;
every method of `Timer` is a function from a state to a state, and to a return value when it
has one.
-/

namespace AVRTimer1

/-! ## Integer conversions of the target -/

/-- Conversion to `unsigned long` (32 bits). -/
def ulong (v : Nat) : Nat := v % 2 ^ 32

/-- Conversion to `unsigned short` (16 bits). -/
def ushort (v : Nat) : Nat := v % 2 ^ 16

/-- Conversion to `byte` (8 bits), the width of `TCCR1A`, `TCCR1B` and `TIMSK1`. -/
def byte (v : Nat) : Nat := v % 2 ^ 8

/-- Conversion of an `unsigned long` to the signed `long` returned by `setPeriod`
(two's complement, 32 bits). -/
def toLong (v : Nat) : Int :=
  if v % 2 ^ 32 < 2 ^ 31 then ((v % 2 ^ 32 : Nat) : Int) else ((v % 2 ^ 32 : Nat) : Int) - 2 ^ 32

/-! ## Bit positions of the ATmega Timer1 registers (`avr/io.h`) -/

/-- Clock-select bit 0 of `TCCR1B`. -/
def CS10 : Nat := 0
/-- Clock-select bit 1 of `TCCR1B`. -/
def CS11 : Nat := 1
/-- Clock-select bit 2 of `TCCR1B`. -/
def CS12 : Nat := 2
/-- Overflow interrupt enable bit of `TIMSK1`. -/
def TOIE1 : Nat := 0
/-- Compare-match A interrupt enable bit of `TIMSK1`. -/
def OCIE1A : Nat := 1
/-- Compare-match B interrupt enable bit of `TIMSK1`. -/
def OCIE1B : Nat := 2

/-- The `_BV(b)` of avr-libc: `1 << b`. -/
def _BV (b : Nat) : Nat := 1 <<< b

/-- The header's `setbit(reg, b)`, `(reg) |= (1 << (b))`, on an 8-bit register. -/
def setbit (reg b : Nat) : Nat := byte (reg ||| (1 <<< b))

/-- The header's `clearbit(reg, b)`, `(reg) &= ~(1 << (b))`, on an 8-bit register; the
complement is taken at the 16 bits of `int`. -/
def clearbit (reg b : Nat) : Nat := byte (reg &&& (2 ^ 16 - 1 - (1 <<< b) % 2 ^ 16))

/-! ## Data model -/

/-- The enum `Timer::Resolution`; it indexes `scaler`. -/
inductive Resolution where
  | none
  | sixteenthMicro
  | halfMicro
  | fourMicros
  | sixteenMicros
  | sixtyFourMicros
  deriving DecidableEq

/-- The enum `Timer::Register`. -/
inductive Register where
  | compareA
  | compareB
  | overflow
  deriving DecidableEq

/-- The enum `Timer::Direction`. -/
inductive Direction where
  | left
  | right
  deriving DecidableEq

/-- The struct `Timer::Scale`. The field `factor` is an `int` in the source; every entry of
the table is a small non-negative constant. -/
structure Scale where
  bits : Nat
  factor : Nat
  shift : Direction
  maxPeriod : Nat
  deriving DecidableEq

/-- The table `Timer::scaler[6]`, indexed by `Resolution`. -/
def scaler : Resolution → Scale
  | .none            => { bits := 0x00,                factor := 0, shift := .left,  maxPeriod := 0 }
  | .sixteenthMicro  => { bits := _BV CS10,            factor := 4, shift := .left,  maxPeriod := 4096 }
  | .halfMicro       => { bits := _BV CS11,            factor := 1, shift := .left,  maxPeriod := 32768 }
  | .fourMicros      => { bits := _BV CS11 ||| _BV CS10, factor := 2, shift := .right, maxPeriod := 262144 }
  | .sixteenMicros   => { bits := _BV CS12,            factor := 4, shift := .right, maxPeriod := 1048576 }
  | .sixtyFourMicros => { bits := _BV CS12 ||| _BV CS10, factor := 6, shift := .right, maxPeriod := 4194304 }

/-- A value of the function-pointer type `Timer::isr`: the default `dummyISR`, or a routine
supplied by the caller, identified by its address. -/
inductive isr where
  | dummyISR
  | routine (addr : Nat)
  deriving DecidableEq

/-- The state the library acts on: the Timer1 registers, the three static routing slots of
`Timer`, and the global interrupt-enable flag of the status register, which
`noInterrupts()` clears and `interrupts()` sets. -/
structure Hw where
  TCCR1A : Nat
  TCCR1B : Nat
  TCNT1 : Nat
  TIMSK1 : Nat
  OCR1A : Nat
  OCR1B : Nat
  isrCompareA : isr
  isrCompareB : isr
  isrOverflow : isr
  globalIrq : Bool
  deriving DecidableEq

/-- The state at process start: registers at their reset value, the three slots initialised
to `dummyISR` by the static initialisers, global interrupts off. -/
def Hw.reset : Hw :=
  { TCCR1A := 0, TCCR1B := 0, TCNT1 := 0, TIMSK1 := 0, OCR1A := 0, OCR1B := 0,
    isrCompareA := .dummyISR, isrCompareB := .dummyISR, isrOverflow := .dummyISR,
    globalIrq := false }

/-- Arduino `noInterrupts()`. -/
def noInterrupts (s : Hw) : Hw := { s with globalIrq := false }

/-- Arduino `interrupts()`. -/
def interrupts (s : Hw) : Hw := { s with globalIrq := true }

/-- The class `Timer`: its only data member is the reference `config`. -/
structure Timer where
  config : Scale
  deriving DecidableEq

/-- The constructor `Timer(Resolution r) : config(scaler[r])`. -/
def mkTimer (r : Resolution) : Timer := { config := scaler r }

namespace Timer

/-- The method `Timer::attachInterrupt(type, i, enable)`. -/
def attachInterrupt (_self : Timer) (type : Register) (i : isr) (enable : Bool) (s : Hw) : Hw :=
  match type with
  | .compareA =>
    let s1 := noInterrupts s
    let s2 := { s1 with isrCompareA := i }
    let s3 := if enable then { s2 with TIMSK1 := setbit s2.TIMSK1 OCIE1A } else s2
    interrupts s3
  | .compareB =>
    let s1 := noInterrupts s
    let s2 := { s1 with isrCompareB := i }
    let s3 := if enable then { s2 with TIMSK1 := setbit s2.TIMSK1 OCIE1B } else s2
    interrupts s3
  | .overflow =>
    let s1 := noInterrupts s
    let s2 := { s1 with isrOverflow := i }
    let s3 := if enable then { s2 with TIMSK1 := setbit s2.TIMSK1 TOIE1 } else s2
    interrupts s3

/-- The method `Timer::begin()`. -/
def begin (_self : Timer) (s : Hw) : Hw :=
  let s1 := noInterrupts s
  let s2 := { s1 with TCCR1A := 0x00 }
  let s3 := { s2 with TCCR1B := 0x00 }
  let s4 := { s3 with TCNT1 := 0x0000 }
  let s5 := { s4 with TIMSK1 := 0x00 }
  interrupts s5

/-- The method `Timer::disableInterrupt(r)`. -/
def disableInterrupt (_self : Timer) (r : Register) (s : Hw) : Hw :=
  match r with
  | .compareA => { s with TIMSK1 := clearbit s.TIMSK1 OCIE1A }
  | .compareB => { s with TIMSK1 := clearbit s.TIMSK1 OCIE1B }
  | .overflow => { s with TIMSK1 := clearbit s.TIMSK1 TOIE1 }

/-- The method `Timer::enableInterrupt(r)`. -/
def enableInterrupt (_self : Timer) (r : Register) (s : Hw) : Hw :=
  match r with
  | .compareA => { s with TIMSK1 := setbit s.TIMSK1 OCIE1A }
  | .compareB => { s with TIMSK1 := setbit s.TIMSK1 OCIE1B }
  | .overflow => { s with TIMSK1 := setbit s.TIMSK1 TOIE1 }

/-- The method `Timer::maxPeriod()`. -/
def maxPeriod (self : Timer) : Nat := self.config.maxPeriod

/-- The method `Timer::stop()`. -/
def stop (_self : Timer) (s : Hw) : Hw := { s with TCCR1B := (scaler .none).bits }

/-- The method `Timer::ticks()`: the value read from `TCNT1`, and the state it leaves. -/
def ticks (_self : Timer) (s : Hw) : Nat × Hw :=
  let s1 := noInterrupts s
  let t := s1.TCNT1
  let s2 := interrupts s1
  (t, s2)

/-- The method `Timer::getTicks(microseconds)`: the shift is done at `unsigned long`, the
result returned as `unsigned short`. -/
def getTicks (self : Timer) (microseconds : Nat) : Nat :=
  let result :=
    if self.config.shift = .left then
      ulong (microseconds <<< self.config.factor)
    else
      ulong (microseconds >>> self.config.factor)
  ushort result

/-- The method `Timer::micros()`: the value returned, and the state `ticks()` leaves. -/
def micros (self : Timer) (s : Hw) : Nat × Hw :=
  let r := self.ticks s
  let t := ulong r.1
  let result :=
    if self.config.shift = .left then
      t >>> self.config.factor
    else
      ulong (t <<< self.config.factor)
  (result, r.2)

/-- The method `Timer::setPeriod(reg, microseconds)`: the `long` returned, and the state. -/
def setPeriod (self : Timer) (reg : Register) (microseconds : Nat) (s : Hw) : Int × Hw :=
  if microseconds > self.config.maxPeriod then
    (toLong self.config.maxPeriod, s)
  else
    let t := self.getTicks microseconds
    if reg = .compareA then
      (0, interrupts { noInterrupts s with OCR1A := t })
    else if reg = .compareB then
      (0, interrupts { noInterrupts s with OCR1B := t })
    else
      (0, s)

/-- The method `Timer::start()`. -/
def start (self : Timer) (s : Hw) : Hw :=
  let s1 := noInterrupts s
  let s2 := { s1 with TCCR1B := self.config.bits }
  let s3 := { s2 with TCNT1 := 0x0000 }
  interrupts s3

end Timer

/-! ## Interrupt vectors and the hardware around the library -/

/-- The vector `ISR(TIMER1_COMPA_vect)`: the routines it calls, in order. -/
def TIMER1_COMPA_vect (s : Hw) : List isr := [s.isrCompareA]

/-- The vector `ISR(TIMER1_COMPB_vect)`: the routines it calls, in order. -/
def TIMER1_COMPB_vect (s : Hw) : List isr := [s.isrCompareB]

/-- The vector `ISR(TIMER1_OVF_vect)`: the routines it calls, in order. -/
def TIMER1_OVF_vect (s : Hw) : List isr := [s.isrOverflow]

/-- The vector that serves an event kind. -/
def dispatch : Register → Hw → List isr
  | .compareA => TIMER1_COMPA_vect
  | .compareB => TIMER1_COMPB_vect
  | .overflow => TIMER1_OVF_vect

/-- The routing slot of an event kind: the static the `switch` of `attachInterrupt` assigns
for it. -/
def Hw.slot (s : Hw) : Register → isr
  | .compareA => s.isrCompareA
  | .compareB => s.isrCompareB
  | .overflow => s.isrOverflow

/-- The bit of `TIMSK1` that the `switch` of `attachInterrupt`, `enableInterrupt` and
`disableInterrupt` selects for an event kind. -/
def Register.enableBit : Register → Nat
  | .compareA => OCIE1A
  | .compareB => OCIE1B
  | .overflow => TOIE1

/-- Whether the interrupt of an event kind is enabled in `TIMSK1`. -/
def Hw.enabled (s : Hw) (k : Register) : Bool := s.TIMSK1.testBit k.enableBit

/-- Hardware model: an event of kind `k` runs the vector of `k` when the enable flag of `k`
is set in `TIMSK1`, and nothing otherwise. The result is the list of routines invoked. -/
def hardwareEvent (k : Register) (s : Hw) : List isr :=
  if s.enabled k then dispatch k s else []

/-- Hardware model: the passing of `n` prescaled clock ticks. The counter advances, modulo
`2^16`, only while the clock-select bits of `TCCR1B` are not all zero. -/
def hardwareElapse (n : Nat) (s : Hw) : Hw :=
  if s.TCCR1B &&& (_BV CS12 ||| _BV CS11 ||| _BV CS10) = 0 then s
  else { s with TCNT1 := (s.TCNT1 + n) % 2 ^ 16 }

/-! ## Sequences of calls -/

/-- A call of one public method of `Timer`, with its arguments. -/
inductive Op where
  | attachInterrupt (type : Register) (i : isr) (enable : Bool)
  | begin
  | disableInterrupt (r : Register)
  | enableInterrupt (r : Register)
  | maxPeriod
  | micros
  | setPeriod (reg : Register) (microseconds : Nat)
  | start
  | stop
  | ticks
  deriving DecidableEq

/-- The state a call leaves. -/
def Timer.call (T : Timer) : Op → Hw → Hw
  | .attachInterrupt type i enable, s => T.attachInterrupt type i enable s
  | .begin, s => T.begin s
  | .disableInterrupt r, s => T.disableInterrupt r s
  | .enableInterrupt r, s => T.enableInterrupt r s
  | .maxPeriod, s => s
  | .micros, s => (T.micros s).2
  | .setPeriod reg microseconds, s => (T.setPeriod reg microseconds s).2
  | .start, s => T.start s
  | .stop, s => T.stop s
  | .ticks, s => (T.ticks s).2

/-- The state a sequence of calls leaves, first call first. -/
def Timer.callAll (T : Timer) : List Op → Hw → Hw
  | [], s => s
  | op :: rest, s => T.callAll rest (T.call op s)

/-- Whether a call turns the interrupt of kind `k` on: `enableInterrupt(k)`, or
`attachInterrupt(k, _, true)`. -/
def Op.enables (k : Register) : Op → Bool
  | .enableInterrupt r => decide (r = k)
  | .attachInterrupt r _ enable => decide (r = k) && enable
  | _ => false

/-- The callback passed to the most recent `attachInterrupt(k, ...)` of a sequence of calls,
or `init` when the sequence has none. -/
def lastAttached (k : Register) (init : isr) : List Op → isr
  | [] => init
  | .attachInterrupt r i _ :: rest =>
    if r = k then lastAttached k i rest else lastAttached k init rest
  | _ :: rest => lastAttached k init rest

/-! ## The statements of each method, in program order -/

/-- One statement of a method body that touches the shared state: a call of
`noInterrupts()` or `interrupts()`, or a write to a register or a routing slot. Reads are
left out. -/
inductive Stmt where
  | noInterrupts
  | interrupts
  | writeTCCR1A (v : Nat)
  | writeTCCR1B (v : Nat)
  | writeTCNT1 (v : Nat)
  | writeTIMSK1 (v : Nat)
  | setbitTIMSK1 (b : Nat)
  | clearbitTIMSK1 (b : Nat)
  | writeOCR1A (v : Nat)
  | writeOCR1B (v : Nat)
  | writeIsrCompareA (i : isr)
  | writeIsrCompareB (i : isr)
  | writeIsrOverflow (i : isr)
  deriving DecidableEq

/-- Whether a statement writes a register or a routing slot. -/
def Stmt.isWrite : Stmt → Bool
  | .noInterrupts => false
  | .interrupts => false
  | _ => true

/-- The effect of one statement. -/
def Stmt.exec : Stmt → Hw → Hw
  | .noInterrupts, s => AVRTimer1.noInterrupts s
  | .interrupts, s => AVRTimer1.interrupts s
  | .writeTCCR1A v, s => { s with TCCR1A := v }
  | .writeTCCR1B v, s => { s with TCCR1B := v }
  | .writeTCNT1 v, s => { s with TCNT1 := v }
  | .writeTIMSK1 v, s => { s with TIMSK1 := v }
  | .setbitTIMSK1 b, s => { s with TIMSK1 := setbit s.TIMSK1 b }
  | .clearbitTIMSK1 b, s => { s with TIMSK1 := clearbit s.TIMSK1 b }
  | .writeOCR1A v, s => { s with OCR1A := v }
  | .writeOCR1B v, s => { s with OCR1B := v }
  | .writeIsrCompareA i, s => { s with isrCompareA := i }
  | .writeIsrCompareB i, s => { s with isrCompareB := i }
  | .writeIsrOverflow i, s => { s with isrOverflow := i }

/-- The effect of a list of statements, first statement first. -/
def execAll : List Stmt → Hw → Hw
  | [], s => s
  | st :: rest, s => execAll rest (st.exec s)

/-- Whether every write of a list of statements, run from state `s`, is made while global
interrupts are off. -/
def writesSuppressed : List Stmt → Hw → Bool
  | [], _ => true
  | st :: rest, s => (!st.isWrite || !s.globalIrq) && writesSuppressed rest (st.exec s)

/-- The statements a call executes, in program order, as written in the body of the
method. -/
def Timer.code (T : Timer) : Op → List Stmt
  | .attachInterrupt .compareA i enable =>
    [.noInterrupts, .writeIsrCompareA i] ++ (if enable then [.setbitTIMSK1 OCIE1A] else [])
      ++ [.interrupts]
  | .attachInterrupt .compareB i enable =>
    [.noInterrupts, .writeIsrCompareB i] ++ (if enable then [.setbitTIMSK1 OCIE1B] else [])
      ++ [.interrupts]
  | .attachInterrupt .overflow i enable =>
    [.noInterrupts, .writeIsrOverflow i] ++ (if enable then [.setbitTIMSK1 TOIE1] else [])
      ++ [.interrupts]
  | .begin =>
    [.noInterrupts, .writeTCCR1A 0x00, .writeTCCR1B 0x00, .writeTCNT1 0x0000,
      .writeTIMSK1 0x00, .interrupts]
  | .disableInterrupt .compareA => [.clearbitTIMSK1 OCIE1A]
  | .disableInterrupt .compareB => [.clearbitTIMSK1 OCIE1B]
  | .disableInterrupt .overflow => [.clearbitTIMSK1 TOIE1]
  | .enableInterrupt .compareA => [.setbitTIMSK1 OCIE1A]
  | .enableInterrupt .compareB => [.setbitTIMSK1 OCIE1B]
  | .enableInterrupt .overflow => [.setbitTIMSK1 TOIE1]
  | .maxPeriod => []
  | .micros => [.noInterrupts, .interrupts]
  | .setPeriod reg microseconds =>
    if microseconds > T.config.maxPeriod then []
    else if reg = .compareA then
      [.noInterrupts, .writeOCR1A (T.getTicks microseconds), .interrupts]
    else if reg = .compareB then
      [.noInterrupts, .writeOCR1B (T.getTicks microseconds), .interrupts]
    else []
  | .start => [.noInterrupts, .writeTCCR1B T.config.bits, .writeTCNT1 0x0000, .interrupts]
  | .stop => [.writeTCCR1B (scaler .none).bits]
  | .ticks => [.noInterrupts, .interrupts]

/-! ## Conversion: `getTicks` -/

/-- C4: for every resolution and every microseconds value `x`, `getTicks x` is
`(x * 2^factor) mod 2^16` when the shift is left and `floor (x / 2^factor) mod 2^16` when it
is right (the remainder of the division is dropped); at `sixtyFourMicros`,
`getTicks 130 = 2`. -/
theorem getTicks_eq (r : Resolution) (x : Nat) :
    (mkTimer r).getTicks x =
        (if (scaler r).shift = .left then (x * 2 ^ (scaler r).factor) % 2 ^ 16
         else (x / 2 ^ (scaler r).factor) % 2 ^ 16)
      ∧ (mkTimer .sixtyFourMicros).getTicks 130 = 2 := by
  refine ⟨?_, by decide⟩
  cases r <;>
    simp [mkTimer, Timer.getTicks, scaler, ulong, ushort, Nat.shiftLeft_eq,
      Nat.shiftRight_eq_div_pow] <;> omega

/-! ## Unfolding lemmas for `setPeriod` -/

/-- The rejecting branch of `setPeriod`. -/
theorem setPeriod_of_gt (T : Timer) (reg : Register) (x : Nat) (s : Hw)
    (h : x > T.config.maxPeriod) :
    T.setPeriod reg x s = (toLong T.config.maxPeriod, s) := by
  simp [Timer.setPeriod, h]

/-- The accepting branch of `setPeriod` on compare register A. -/
theorem setPeriod_compareA_of_le (T : Timer) (x : Nat) (s : Hw) (h : x ≤ T.config.maxPeriod) :
    T.setPeriod .compareA x s
      = (0, interrupts { noInterrupts s with OCR1A := T.getTicks x }) := by
  simp [Timer.setPeriod, Nat.not_lt.mpr h]

/-- The accepting branch of `setPeriod` on compare register B. -/
theorem setPeriod_compareB_of_le (T : Timer) (x : Nat) (s : Hw) (h : x ≤ T.config.maxPeriod) :
    T.setPeriod .compareB x s
      = (0, interrupts { noInterrupts s with OCR1B := T.getTicks x }) := by
  simp [Timer.setPeriod, Nat.not_lt.mpr h]

/-- Every `maxPeriod` of the table fits the signed `long` that `setPeriod` returns. -/
theorem toLong_maxPeriod (r : Resolution) :
    toLong (scaler r).maxPeriod = (((scaler r).maxPeriod : Nat) : Int) := by
  cases r <;> simp [scaler, toLong]

/-- The `maxPeriod` of a counting resolution is not zero. -/
theorem maxPeriod_ne_zero (r : Resolution) (hr : r ≠ .none) : (scaler r).maxPeriod ≠ 0 := by
  cases r <;> first | exact absurd rfl hr | simp [scaler]

/-! ## Programming a compare register: `setPeriod` -/

/-- C1: for every resolution, every register argument and every `x` above `maxPeriod()`,
`setPeriod reg x` returns `maxPeriod()` and leaves the whole state as it was: both compare
registers, the counter, the control registers, the interrupt-enable flags and the three
routing slots. -/
theorem setPeriod_rejected (r : Resolution) (reg : Register) (x : Nat) (s : Hw)
    (h : x > (mkTimer r).maxPeriod) :
    ((mkTimer r).setPeriod reg x s).1 = (((mkTimer r).maxPeriod : Nat) : Int)
      ∧ ((mkTimer r).setPeriod reg x s).2 = s := by
  rw [setPeriod_of_gt (mkTimer r) reg x s h]
  exact ⟨toLong_maxPeriod r, rfl⟩

/-- Witness of C1: at `sixtyFourMicros`, one microsecond above the maximum. -/
theorem setPeriod_rejected_witness :
    4194305 > (mkTimer .sixtyFourMicros).maxPeriod
      ∧ ((mkTimer .sixtyFourMicros).setPeriod .compareA 4194305 Hw.reset).1 = 4194304
      ∧ ((mkTimer .sixtyFourMicros).setPeriod .compareA 4194305 Hw.reset).2 = Hw.reset :=
  ⟨by decide,
   (setPeriod_rejected .sixtyFourMicros .compareA 4194305 Hw.reset (by decide)).1,
   (setPeriod_rejected .sixtyFourMicros .compareA 4194305 Hw.reset (by decide)).2⟩

/-- C2: for every resolution, `reg` one of `compareA`, `compareB`, and `x` at most
`maxPeriod()`, `setPeriod reg x` returns 0, the selected compare register then holds
`getTicks x`, and the other compare register, the counter, the control registers, the
interrupt-enable flags and the routing slots are as before. -/
theorem setPeriod_accepted (r : Resolution) (reg : Register) (x : Nat) (s : Hw)
    (hreg : reg = .compareA ∨ reg = .compareB) (h : x ≤ (mkTimer r).maxPeriod) :
    ((mkTimer r).setPeriod reg x s).1 = 0
      ∧ (if reg = .compareA then
            ((mkTimer r).setPeriod reg x s).2.OCR1A = (mkTimer r).getTicks x
              ∧ ((mkTimer r).setPeriod reg x s).2.OCR1B = s.OCR1B
          else
            ((mkTimer r).setPeriod reg x s).2.OCR1B = (mkTimer r).getTicks x
              ∧ ((mkTimer r).setPeriod reg x s).2.OCR1A = s.OCR1A)
      ∧ ((mkTimer r).setPeriod reg x s).2.TCNT1 = s.TCNT1
      ∧ ((mkTimer r).setPeriod reg x s).2.TCCR1A = s.TCCR1A
      ∧ ((mkTimer r).setPeriod reg x s).2.TCCR1B = s.TCCR1B
      ∧ ((mkTimer r).setPeriod reg x s).2.TIMSK1 = s.TIMSK1
      ∧ ((mkTimer r).setPeriod reg x s).2.isrCompareA = s.isrCompareA
      ∧ ((mkTimer r).setPeriod reg x s).2.isrCompareB = s.isrCompareB
      ∧ ((mkTimer r).setPeriod reg x s).2.isrOverflow = s.isrOverflow := by
  rcases hreg with rfl | rfl
  · rw [setPeriod_compareA_of_le (mkTimer r) x s h]
    simp [interrupts, noInterrupts]
  · rw [setPeriod_compareB_of_le (mkTimer r) x s h]
    simp [interrupts, noInterrupts]

/-- Witness of C2: at `sixtyFourMicros`, `setPeriod compareA 130` returns 0 and leaves
`OCR1A = 2`. -/
theorem setPeriod_accepted_witness :
    130 ≤ (mkTimer .sixtyFourMicros).maxPeriod
      ∧ ((mkTimer .sixtyFourMicros).setPeriod .compareA 130 Hw.reset).1 = 0
      ∧ ((mkTimer .sixtyFourMicros).setPeriod .compareA 130 Hw.reset).2.OCR1A = 2 :=
  ⟨by decide,
   (setPeriod_accepted .sixtyFourMicros .compareA 130 Hw.reset (Or.inl rfl) (by decide)).1,
   ((setPeriod_accepted .sixtyFourMicros .compareA 130 Hw.reset (Or.inl rfl)
      (by decide)).2.1).1.trans (by decide)⟩

/-- C3, as stated, fails at the resolution `none`: its `maxPeriod()` is 0, so
`setPeriod compareA 1` is rejected (1 exceeds 0, the state is untouched) and the value
returned, `maxPeriod()`, is the success value 0. -/
theorem setPeriod_none_rejected_returns_zero :
    ¬ (((mkTimer .none).setPeriod .compareA 1 Hw.reset).1 = 0 ↔ 1 ≤ (mkTimer .none).maxPeriod)
      ∧ ((mkTimer .none).setPeriod .compareA 1 Hw.reset).1 = 0
      ∧ ((mkTimer .none).setPeriod .compareA 1 Hw.reset).2 = Hw.reset := by
  decide

/-- C3, amended: for each of the five counting resolutions, `reg` one of `compareA`,
`compareB`, and every `x`, `setPeriod reg x` returns 0 exactly when `x` is at most
`maxPeriod()`; then the selected compare register holds `getTicks x`; otherwise the value
returned is `maxPeriod()`, which is not 0, and the state is untouched. -/
theorem setPeriod_zero_iff_accepted (r : Resolution) (reg : Register) (x : Nat) (s : Hw)
    (hr : r ≠ .none) (hreg : reg = .compareA ∨ reg = .compareB) :
    (((mkTimer r).setPeriod reg x s).1 = 0 ↔ x ≤ (mkTimer r).maxPeriod)
      ∧ (if x ≤ (mkTimer r).maxPeriod then
            (if reg = .compareA then ((mkTimer r).setPeriod reg x s).2.OCR1A
              else ((mkTimer r).setPeriod reg x s).2.OCR1B) = (mkTimer r).getTicks x
          else
            ((mkTimer r).setPeriod reg x s).1 = (((mkTimer r).maxPeriod : Nat) : Int)
              ∧ ((mkTimer r).setPeriod reg x s).1 ≠ 0
              ∧ ((mkTimer r).setPeriod reg x s).2 = s) := by
  by_cases hx : x ≤ (mkTimer r).maxPeriod
  · rw [if_pos hx]
    rcases hreg with rfl | rfl
    · rw [setPeriod_compareA_of_le (mkTimer r) x s hx]
      simp [interrupts, noInterrupts, hx]
    · rw [setPeriod_compareB_of_le (mkTimer r) x s hx]
      simp [interrupts, noInterrupts, hx]
  · rw [if_neg hx, setPeriod_of_gt (mkTimer r) reg x s (Nat.lt_of_not_le hx)]
    have hne : (((scaler r).maxPeriod : Nat) : Int) ≠ 0 :=
      Int.natCast_ne_zero.mpr (maxPeriod_ne_zero r hr)
    have hl := toLong_maxPeriod r
    refine ⟨⟨fun h0 => absurd (hl ▸ h0) hne, fun hle => absurd hle hx⟩, hl, ?_, rfl⟩
    exact fun h0 => hne (hl ▸ h0)

/-- Witness of C3 amended: `halfMicro`, compare register B, 100 microseconds. -/
theorem setPeriod_zero_iff_accepted_witness :
    Resolution.halfMicro ≠ Resolution.none
      ∧ (((mkTimer .halfMicro).setPeriod .compareB 100 Hw.reset).1 = 0
          ↔ 100 ≤ (mkTimer .halfMicro).maxPeriod) :=
  ⟨by decide,
   (setPeriod_zero_iff_accepted .halfMicro .compareB 100 Hw.reset (by decide) (Or.inr rfl)).1⟩

/-! ## The boundary of `getTicks` -/

/-- C5, as stated, fails: at `sixteenthMicro` the maximum period 4096 converts to
`4096 * 2^4 = 65536` ticks, which wraps to 0 in the 16-bit result, so `getTicks 1 = 16` is
above `getTicks (maxPeriod())`. -/
theorem getTicks_maxPeriod_wraps :
    1 ≤ (mkTimer .sixteenthMicro).maxPeriod
      ∧ (mkTimer .sixteenthMicro).getTicks 1 = 16
      ∧ (mkTimer .sixteenthMicro).getTicks (mkTimer .sixteenthMicro).maxPeriod = 0
      ∧ ¬ ((mkTimer .sixteenthMicro).getTicks 1
            ≤ (mkTimer .sixteenthMicro).getTicks (mkTimer .sixteenthMicro).maxPeriod) := by
  decide

/-- C5, amended: for every resolution and every `x` strictly below `maxPeriod()`, converting
`x` does not wrap modulo `2^16` (the result is the exact `x * 2^factor`, or
`floor (x / 2^factor)`), and the largest tick value is that of `maxPeriod() - 1`:
`getTicks x` is at most `getTicks (maxPeriod() - 1)`, itself exact and at most 65535. -/
theorem getTicks_le_of_lt_maxPeriod (r : Resolution) (x : Nat)
    (h : x < (mkTimer r).maxPeriod) :
    (mkTimer r).getTicks x =
        (if (scaler r).shift = .left then x * 2 ^ (scaler r).factor
         else x / 2 ^ (scaler r).factor)
      ∧ (mkTimer r).getTicks x ≤ (mkTimer r).getTicks ((mkTimer r).maxPeriod - 1)
      ∧ (mkTimer r).getTicks ((mkTimer r).maxPeriod - 1) =
          (if (scaler r).shift = .left then ((mkTimer r).maxPeriod - 1) * 2 ^ (scaler r).factor
           else ((mkTimer r).maxPeriod - 1) / 2 ^ (scaler r).factor)
      ∧ (mkTimer r).getTicks ((mkTimer r).maxPeriod - 1) ≤ 65535 := by
  cases r <;>
    simp [mkTimer, Timer.getTicks, Timer.maxPeriod, scaler, ulong, ushort, Nat.shiftLeft_eq,
      Nat.shiftRight_eq_div_pow] at h ⊢ <;> omega

/-- Witness of C5 amended: `fourMicros`, 1000 microseconds. -/
theorem getTicks_le_of_lt_maxPeriod_witness :
    1000 < (mkTimer .fourMicros).maxPeriod
      ∧ (mkTimer .fourMicros).getTicks 1000 = 250
      ∧ (mkTimer .fourMicros).getTicks 1000
          ≤ (mkTimer .fourMicros).getTicks ((mkTimer .fourMicros).maxPeriod - 1) :=
  ⟨by decide,
   (getTicks_le_of_lt_maxPeriod .fourMicros 1000 (by decide)).1.trans (by decide),
   (getTicks_le_of_lt_maxPeriod .fourMicros 1000 (by decide)).2.1⟩

/-! ## Round trips through `getTicks` and `micros` -/

/-- C6, as stated, fails: at `sixtyFourMicros`, `x = 8388608` is a multiple of `2^6`, its
tick count 131072 wraps to 0, and `micros()` gives back 0, not `x`. -/
theorem roundtrip_right_multiple_not_exact :
    2 ^ (scaler .sixtyFourMicros).factor ∣ 8388608
      ∧ ((mkTimer .sixtyFourMicros).micros
            { Hw.reset with TCNT1 := (mkTimer .sixtyFourMicros).getTicks 8388608 }).1 = 0
      ∧ ¬ (((mkTimer .sixtyFourMicros).micros
              { Hw.reset with TCNT1 := (mkTimer .sixtyFourMicros).getTicks 8388608 }).1 = 8388608
            ↔ 2 ^ (scaler .sixtyFourMicros).factor ∣ 8388608) := by
  decide

/-- C6, amended: for each resolution whose shift is right and every `x`, `getTicks x` read
back by `micros()` is at most `x`; and when `x` is below `maxPeriod()` it equals `x` exactly
when `x` is a multiple of `2^factor`. -/
theorem roundtrip_right (r : Resolution) (x : Nat) (s : Hw)
    (hr : (scaler r).shift = .right) :
    ((mkTimer r).micros { s with TCNT1 := (mkTimer r).getTicks x }).1 ≤ x
      ∧ (x < (mkTimer r).maxPeriod →
          (((mkTimer r).micros { s with TCNT1 := (mkTimer r).getTicks x }).1 = x
            ↔ 2 ^ (scaler r).factor ∣ x)) := by
  cases r <;>
    simp [mkTimer, Timer.micros, Timer.ticks, Timer.getTicks, Timer.maxPeriod, scaler, ulong,
      ushort, noInterrupts, interrupts, Nat.shiftLeft_eq, Nat.shiftRight_eq_div_pow]
      at hr ⊢ <;> omega

/-- Witness of C6 amended: at `sixtyFourMicros`, 130 microseconds come back as 128. -/
theorem roundtrip_right_witness :
    (scaler .sixtyFourMicros).shift = .right
      ∧ ((mkTimer .sixtyFourMicros).micros
            { Hw.reset with TCNT1 := (mkTimer .sixtyFourMicros).getTicks 130 }).1 ≤ 130
      ∧ ((mkTimer .sixtyFourMicros).micros
            { Hw.reset with TCNT1 := (mkTimer .sixtyFourMicros).getTicks 130 }).1 = 128
      ∧ (((mkTimer .sixtyFourMicros).micros
            { Hw.reset with TCNT1 := (mkTimer .sixtyFourMicros).getTicks 130 }).1 = 130
          ↔ 2 ^ (scaler .sixtyFourMicros).factor ∣ 130) :=
  ⟨rfl, (roundtrip_right .sixtyFourMicros 130 Hw.reset rfl).1, by decide,
   (roundtrip_right .sixtyFourMicros 130 Hw.reset rfl).2 (by decide)⟩

/-- C7, as stated, fails: at `sixteenthMicro`, `x = 5000` converts to `80000 mod 2^16 = 14464`
ticks, which `micros()` reads back as 904. -/
theorem roundtrip_left_not_exact :
    (scaler .sixteenthMicro).shift = .left
      ∧ (mkTimer .sixteenthMicro).getTicks 5000 = 14464
      ∧ ((mkTimer .sixteenthMicro).micros
            { Hw.reset with TCNT1 := (mkTimer .sixteenthMicro).getTicks 5000 }).1 = 904
      ∧ ((mkTimer .sixteenthMicro).micros
            { Hw.reset with TCNT1 := (mkTimer .sixteenthMicro).getTicks 5000 }).1 ≠ 5000 := by
  decide

/-- C7, amended: for each resolution whose shift is left and every `x` whose exact tick count
`x * 2^factor` is below `2^16`, `getTicks x` read back by `micros()` is exactly `x`. -/
theorem roundtrip_left (r : Resolution) (x : Nat) (s : Hw)
    (hr : (scaler r).shift = .left) (hx : x * 2 ^ (scaler r).factor < 2 ^ 16) :
    ((mkTimer r).micros { s with TCNT1 := (mkTimer r).getTicks x }).1 = x := by
  cases r <;>
    simp [mkTimer, Timer.micros, Timer.ticks, Timer.getTicks, scaler, ulong,
      ushort, noInterrupts, interrupts, Nat.shiftLeft_eq, Nat.shiftRight_eq_div_pow]
      at hr hx ⊢ <;> omega

/-- Witness of C7 amended: `halfMicro`, 1000 microseconds. -/
theorem roundtrip_left_witness :
    (scaler .halfMicro).shift = .left
      ∧ 1000 * 2 ^ (scaler .halfMicro).factor < 2 ^ 16
      ∧ ((mkTimer .halfMicro).micros
            { Hw.reset with TCNT1 := (mkTimer .halfMicro).getTicks 1000 }).1 = 1000 :=
  ⟨rfl, by decide, roundtrip_left .halfMicro 1000 Hw.reset rfl (by decide)⟩

/-! ## Conversion: `micros` -/

/-- C8: for every resolution and every counter value `t` in `0..65535`, `micros()` returns
`floor (t / 2^factor)` when the shift is left and `t * 2^factor` when it is right, a product
that stays below `2^32`; and for a non-zero factor and `t > 0` this differs from shifting `t`
the way `getTicks` does. -/
theorem micros_eq (r : Resolution) (s : Hw) (h : s.TCNT1 < 65536) :
    ((mkTimer r).micros s).1 =
        (if (scaler r).shift = .left then s.TCNT1 / 2 ^ (scaler r).factor
         else s.TCNT1 * 2 ^ (scaler r).factor)
      ∧ s.TCNT1 * 2 ^ (scaler r).factor < 2 ^ 32
      ∧ ((scaler r).factor ≠ 0 → 0 < s.TCNT1 →
          ((mkTimer r).micros s).1 ≠
            (if (scaler r).shift = .left then ulong (s.TCNT1 <<< (scaler r).factor)
             else ulong (s.TCNT1 >>> (scaler r).factor))) := by
  have h1 : s.TCNT1 % 4294967296 = s.TCNT1 := Nat.mod_eq_of_lt (by omega)
  have h2 : ∀ k, k ≤ 64 → s.TCNT1 * k % 4294967296 = s.TCNT1 * k :=
    fun k hk => Nat.mod_eq_of_lt (by nlinarith)
  have h3 : ∀ k, s.TCNT1 / k % 4294967296 = s.TCNT1 / k :=
    fun k => Nat.mod_eq_of_lt (Nat.lt_of_le_of_lt (Nat.div_le_self _ _) (by omega))
  cases r <;>
    simp [mkTimer, Timer.micros, Timer.ticks, scaler, ulong, noInterrupts, interrupts,
      Nat.shiftLeft_eq, Nat.shiftRight_eq_div_pow, h1, h2, h3] <;> omega

/-- Witness of C8: counter at 1000 under `sixteenMicros`. -/
theorem micros_eq_witness :
    ({ Hw.reset with TCNT1 := 1000 } : Hw).TCNT1 < 65536
      ∧ ((mkTimer .sixteenMicros).micros { Hw.reset with TCNT1 := 1000 }).1 = 16000 :=
  ⟨by decide, (micros_eq .sixteenMicros { Hw.reset with TCNT1 := 1000 } (by decide)).1⟩

/-- C9: for each of the five counting resolutions and every counter value in `0..65535`, the
value returned by `micros()` lies between 0 and `maxPeriod()` inclusive. -/
theorem micros_le_maxPeriod (r : Resolution) (s : Hw) (hr : r ≠ .none)
    (h : s.TCNT1 < 65536) :
    0 ≤ ((mkTimer r).micros s).1 ∧ ((mkTimer r).micros s).1 ≤ (mkTimer r).maxPeriod := by
  cases r <;>
    simp [mkTimer, Timer.micros, Timer.ticks, Timer.maxPeriod, scaler, ulong, noInterrupts,
      interrupts, Nat.shiftLeft_eq, Nat.shiftRight_eq_div_pow] at hr ⊢ <;> omega

/-- Witness of C9: counter at its top value 65535 under `halfMicro`. -/
theorem micros_le_maxPeriod_witness :
    Resolution.halfMicro ≠ Resolution.none
      ∧ ({ Hw.reset with TCNT1 := 65535 } : Hw).TCNT1 < 65536
      ∧ ((mkTimer .halfMicro).micros { Hw.reset with TCNT1 := 65535 }).1
          ≤ (mkTimer .halfMicro).maxPeriod :=
  ⟨by decide, by decide,
   (micros_le_maxPeriod .halfMicro { Hw.reset with TCNT1 := 65535 } (by decide)
      (by decide)).2⟩

/-! ## The resolution table -/

/-- C10: `maxPeriod()` is 0 for `none`, whose prescale selector is `0x00`, and 4096, 32768,
262144, 1048576, 4194304 for the five counting resolutions; for each of these it is the time
of `2^16` ticks: `maxPeriod * 2^factor = 65536` for a left shift, `maxPeriod / 2^factor = 65536`
with remainder 0 for a right shift. -/
theorem scaler_maxPeriod_table :
    ((mkTimer .none).maxPeriod = 0 ∧ (scaler .none).bits = 0x00)
      ∧ ((mkTimer .sixteenthMicro).maxPeriod = 4096
          ∧ (mkTimer .halfMicro).maxPeriod = 32768
          ∧ (mkTimer .fourMicros).maxPeriod = 262144
          ∧ (mkTimer .sixteenMicros).maxPeriod = 1048576
          ∧ (mkTimer .sixtyFourMicros).maxPeriod = 4194304)
      ∧ (∀ r : Resolution,
          if r = .none then True
          else if (scaler r).shift = .left then
            (mkTimer r).maxPeriod * 2 ^ (scaler r).factor = 65536
          else
            (mkTimer r).maxPeriod / 2 ^ (scaler r).factor = 65536
              ∧ (mkTimer r).maxPeriod % 2 ^ (scaler r).factor = 0) := by
  refine ⟨by decide, by decide, ?_⟩
  intro r
  cases r <;> decide

/-! ## Bits of `TIMSK1` -/

/-- The macro `setbit` sets bit `b` and keeps the other bits of an 8-bit register. -/
theorem testBit_setbit (reg b j : Nat) (hj : j < 8) :
    (setbit reg b).testBit j = (decide (b = j) || reg.testBit j) := by
  unfold setbit byte
  rw [Nat.testBit_mod_two_pow, Nat.testBit_or, Nat.one_shiftLeft, Nat.testBit_two_pow]
  simp [hj, Bool.or_comm]

/-- The macro `clearbit` clears bit `b` and keeps the other bits of an 8-bit register. -/
theorem testBit_clearbit (reg b j : Nat) (hb : b < 8) (hj : j < 8) :
    (clearbit reg b).testBit j = (!decide (b = j) && reg.testBit j) := by
  simp only [clearbit, byte, Nat.testBit_mod_two_pow, Nat.testBit_and, hj, decide_True,
    Bool.true_and]
  interval_cases b <;> interval_cases j <;> simp [Nat.testBit, Nat.shiftRight_eq_div_pow]

/-- The three enable bits lie in the 8-bit register. -/
theorem enableBit_lt (k : Register) : k.enableBit < 8 := by
  cases k <;> decide

/-- Distinct event kinds have distinct enable bits. -/
theorem enableBit_injective (k k' : Register) (h : k.enableBit = k'.enableBit) : k = k' := by
  cases k <;> cases k' <;> first | rfl | exact absurd h (by decide)

/-! ## Interrupt routing: `attachInterrupt`, `enableInterrupt`, `disableInterrupt` -/

/-- C11: for every event kind `k`, callback `cb` and prior state, `attachInterrupt k cb enable`
stores `cb` in the slot of `k` and leaves the other two slots as they were; with `enable`
true it sets the enable flag of `k` in `TIMSK1` and leaves the other flags as they were, with
`enable` false it leaves `TIMSK1` as it was; the counter, the control registers and the
compare registers are unchanged in both cases. -/
theorem attachInterrupt_frame (T : Timer) (k : Register) (cb : isr) (enable : Bool) (s : Hw) :
    (T.attachInterrupt k cb enable s).slot k = cb
      ∧ (∀ k', k' ≠ k → (T.attachInterrupt k cb enable s).slot k' = s.slot k')
      ∧ (if enable then
            (T.attachInterrupt k cb enable s).enabled k = true
              ∧ ∀ j, j < 8 → j ≠ k.enableBit →
                  (T.attachInterrupt k cb enable s).TIMSK1.testBit j = s.TIMSK1.testBit j
          else (T.attachInterrupt k cb enable s).TIMSK1 = s.TIMSK1)
      ∧ (T.attachInterrupt k cb enable s).TCNT1 = s.TCNT1
      ∧ (T.attachInterrupt k cb enable s).TCCR1A = s.TCCR1A
      ∧ (T.attachInterrupt k cb enable s).TCCR1B = s.TCCR1B
      ∧ (T.attachInterrupt k cb enable s).OCR1A = s.OCR1A
      ∧ (T.attachInterrupt k cb enable s).OCR1B = s.OCR1B := by
  have hset : ∀ b j, j < 8 → j ≠ b → (setbit s.TIMSK1 b).testBit j = s.TIMSK1.testBit j := by
    intro b j hj hne
    rw [testBit_setbit _ _ _ hj]
    simp [Ne.symm hne]
  have hon : ∀ b, b < 8 → (setbit s.TIMSK1 b).testBit b = true := by
    intro b hb
    rw [testBit_setbit _ _ _ hb]
    simp
  refine ⟨?_, ?_, ?_, ?_, ?_, ?_, ?_, ?_⟩
  · cases enable <;> cases k <;> rfl
  · intro k' hk'
    cases enable <;> cases k <;> cases k' <;> first | exact absurd rfl hk' | rfl
  · cases enable
    · cases k <;> rfl
    · cases k
      · exact ⟨hon OCIE1A (by decide), fun j hj hne => hset OCIE1A j hj hne⟩
      · exact ⟨hon OCIE1B (by decide), fun j hj hne => hset OCIE1B j hj hne⟩
      · exact ⟨hon TOIE1 (by decide), fun j hj hne => hset TOIE1 j hj hne⟩
  all_goals cases k <;> cases enable <;> rfl

/-- C12: for every event kind `k` and prior state, `enableInterrupt k` sets and
`disableInterrupt k` clears the enable flag of `k` in `TIMSK1`; both leave the other flags
as they were and change no field of the state other than `TIMSK1` (slots, counter, control
and compare registers), so after `disableInterrupt k` then `enableInterrupt k` the slot of
`k` holds the callback it held before. -/
theorem enable_disable_frame (T : Timer) (k : Register) (s : Hw) :
    ((T.enableInterrupt k s).enabled k = true
        ∧ (∀ j, j < 8 → j ≠ k.enableBit →
            (T.enableInterrupt k s).TIMSK1.testBit j = s.TIMSK1.testBit j)
        ∧ T.enableInterrupt k s = { s with TIMSK1 := (T.enableInterrupt k s).TIMSK1 }
        ∧ ∀ k', (T.enableInterrupt k s).slot k' = s.slot k')
      ∧ ((T.disableInterrupt k s).enabled k = false
        ∧ (∀ j, j < 8 → j ≠ k.enableBit →
            (T.disableInterrupt k s).TIMSK1.testBit j = s.TIMSK1.testBit j)
        ∧ T.disableInterrupt k s = { s with TIMSK1 := (T.disableInterrupt k s).TIMSK1 }
        ∧ ∀ k', (T.disableInterrupt k s).slot k' = s.slot k')
      ∧ (T.enableInterrupt k (T.disableInterrupt k s)).slot k = s.slot k
      ∧ (T.enableInterrupt k (T.disableInterrupt k s)).enabled k = true := by
  have hset : ∀ v b j, j < 8 → j ≠ b → (setbit v b).testBit j = v.testBit j := by
    intro v b j hj hne
    rw [testBit_setbit _ _ _ hj]
    simp [Ne.symm hne]
  have hon : ∀ v b, b < 8 → (setbit v b).testBit b = true := by
    intro v b hb
    rw [testBit_setbit _ _ _ hb]
    simp
  have hclr : ∀ v b j, b < 8 → j < 8 → j ≠ b → (clearbit v b).testBit j = v.testBit j := by
    intro v b j hb hj hne
    rw [testBit_clearbit _ _ _ hb hj]
    simp [Ne.symm hne]
  have hoff : ∀ v b, b < 8 → (clearbit v b).testBit b = false := by
    intro v b hb
    rw [testBit_clearbit _ _ _ hb hb]
    simp
  cases k
  · exact ⟨⟨hon _ OCIE1A (by decide), fun j hj hne => hset _ OCIE1A j hj hne, rfl,
        fun k' => by cases k' <;> rfl⟩,
      ⟨hoff _ OCIE1A (by decide), fun j hj hne => hclr _ OCIE1A j (by decide) hj hne, rfl,
        fun k' => by cases k' <;> rfl⟩, rfl, hon _ OCIE1A (by decide)⟩
  · exact ⟨⟨hon _ OCIE1B (by decide), fun j hj hne => hset _ OCIE1B j hj hne, rfl,
        fun k' => by cases k' <;> rfl⟩,
      ⟨hoff _ OCIE1B (by decide), fun j hj hne => hclr _ OCIE1B j (by decide) hj hne, rfl,
        fun k' => by cases k' <;> rfl⟩, rfl, hon _ OCIE1B (by decide)⟩
  · exact ⟨⟨hon _ TOIE1 (by decide), fun j hj hne => hset _ TOIE1 j hj hne, rfl,
        fun k' => by cases k' <;> rfl⟩,
      ⟨hoff _ TOIE1 (by decide), fun j hj hne => hclr _ TOIE1 j (by decide) hj hne, rfl,
        fun k' => by cases k' <;> rfl⟩, rfl, hon _ TOIE1 (by decide)⟩

/-! ## The enable flag along a sequence of calls -/

/-- The register `TIMSK1` after `attachInterrupt`. -/
theorem attachInterrupt_TIMSK1 (T : Timer) (r : Register) (i : isr) (enable : Bool) (s : Hw) :
    (T.attachInterrupt r i enable s).TIMSK1
      = if enable then setbit s.TIMSK1 r.enableBit else s.TIMSK1 := by
  cases r <;> cases enable <;> rfl

/-- The register `TIMSK1` after `enableInterrupt`. -/
theorem enableInterrupt_TIMSK1 (T : Timer) (r : Register) (s : Hw) :
    (T.enableInterrupt r s).TIMSK1 = setbit s.TIMSK1 r.enableBit := by
  cases r <;> rfl

/-- The register `TIMSK1` after `disableInterrupt`. -/
theorem disableInterrupt_TIMSK1 (T : Timer) (r : Register) (s : Hw) :
    (T.disableInterrupt r s).TIMSK1 = clearbit s.TIMSK1 r.enableBit := by
  cases r <;> rfl

/-- The method `setPeriod` does not write `TIMSK1`. -/
theorem setPeriod_TIMSK1 (T : Timer) (reg : Register) (x : Nat) (s : Hw) :
    (T.setPeriod reg x s).2.TIMSK1 = s.TIMSK1 := by
  unfold Timer.setPeriod
  split_ifs <;> rfl

/-- A call that does not turn the interrupt of `k` on leaves it off. -/
theorem call_keeps_disabled (T : Timer) (k : Register) (op : Op) (s : Hw)
    (hop : op.enables k = false) (h : s.enabled k = false) :
    (T.call op s).enabled k = false := by
  have hk := enableBit_lt k
  unfold Hw.enabled at h ⊢
  cases op with
  | attachInterrupt r i enable =>
    show (T.attachInterrupt r i enable s).TIMSK1.testBit k.enableBit = false
    rw [attachInterrupt_TIMSK1]
    cases enable
    · simpa using h
    · have hne : r ≠ k := by simpa [Op.enables] using hop
      have hb : r.enableBit ≠ k.enableBit := fun e => hne (enableBit_injective r k e)
      simp [testBit_setbit _ _ _ hk, hb, h]
  | begin => exact Nat.zero_testBit _
  | disableInterrupt r =>
    show (T.disableInterrupt r s).TIMSK1.testBit k.enableBit = false
    rw [disableInterrupt_TIMSK1, testBit_clearbit _ _ _ (enableBit_lt r) hk]
    simp [h]
  | enableInterrupt r =>
    show (T.enableInterrupt r s).TIMSK1.testBit k.enableBit = false
    have hne : r ≠ k := by simpa [Op.enables] using hop
    have hb : r.enableBit ≠ k.enableBit := fun e => hne (enableBit_injective r k e)
    rw [enableInterrupt_TIMSK1]
    simp [testBit_setbit _ _ _ hk, hb, h]
  | maxPeriod => exact h
  | micros => exact h
  | setPeriod reg x =>
    show (T.setPeriod reg x s).2.TIMSK1.testBit k.enableBit = false
    rw [setPeriod_TIMSK1]
    exact h
  | start => exact h
  | stop => exact h
  | ticks => exact h

/-- A sequence of calls none of which turns the interrupt of `k` on leaves it off. -/
theorem callAll_keeps_disabled (T : Timer) (k : Register) (ops : List Op) :
    ∀ s : Hw, (∀ op ∈ ops, op.enables k = false) → s.enabled k = false →
      (T.callAll ops s).enabled k = false := by
  induction ops with
  | nil => intro s _ h; exact h
  | cons op rest ih =>
    intro s hops h
    exact ih (T.call op s) (fun o ho => hops o (List.mem_cons_of_mem _ ho))
      (call_keeps_disabled T k op s (hops op (List.mem_cons_self _ _)) h)

/-- C13, as stated, fails: from the state reached by `enableInterrupt(compareA)`, after
`attachInterrupt(compareA, cb, false)` the enable flag is still set and a compare-A event
invokes `cb`. -/
theorem attach_without_enable_still_invoked :
    hardwareEvent .compareA
        ((mkTimer .halfMicro).attachInterrupt .compareA (.routine 1) false
          ((mkTimer .halfMicro).enableInterrupt .compareA Hw.reset))
      = [.routine 1] := by
  decide

/-- C13, amended: from every state in which the enable flag of `k` is clear, after
`attachInterrupt(k, cb, false)` a hardware event of kind `k` invokes nothing, and this stays
so across every sequence of calls that contains neither `enableInterrupt(k)` nor an
`attachInterrupt` on `k` with `enable = true`; once `enableInterrupt(k)` is called directly
after the attach, the event invokes `cb`. -/
theorem attach_disabled_not_invoked (T : Timer) (k : Register) (cb : isr) (s : Hw)
    (ops : List Op) (h0 : s.enabled k = false) (hops : ∀ op ∈ ops, op.enables k = false) :
    hardwareEvent k (T.callAll ops (T.attachInterrupt k cb false s)) = []
      ∧ hardwareEvent k (T.enableInterrupt k (T.attachInterrupt k cb false s)) = [cb] := by
  have hatt : (T.attachInterrupt k cb false s).enabled k = false := by
    unfold Hw.enabled
    rw [attachInterrupt_TIMSK1]
    simpa using h0
  have hoff := callAll_keeps_disabled T k ops _ hops hatt
  have hon : (T.enableInterrupt k (T.attachInterrupt k cb false s)).enabled k = true := by
    unfold Hw.enabled
    rw [enableInterrupt_TIMSK1, testBit_setbit _ _ _ (enableBit_lt k)]
    simp
  refine ⟨by simp [hardwareEvent, hoff], ?_⟩
  simp only [hardwareEvent, hon, if_true]
  cases k <;> rfl

/-- Witness of C13 amended: after `begin()`, a callback attached to compare A with
`enable = false` is not invoked across `start`, `setPeriod`, an attach on overflow with
`enable = true`, and `disableInterrupt(compareA)`. -/
theorem attach_disabled_not_invoked_witness :
    ((mkTimer .halfMicro).begin Hw.reset).enabled .compareA = false
      ∧ hardwareEvent .compareA
          ((mkTimer .halfMicro).callAll
            [.start, .setPeriod .compareA 100, .attachInterrupt .overflow (.routine 2) true,
              .disableInterrupt .compareA]
            ((mkTimer .halfMicro).attachInterrupt .compareA (.routine 1) false
              ((mkTimer .halfMicro).begin Hw.reset))) = [] :=
  ⟨by decide,
   (attach_disabled_not_invoked (mkTimer .halfMicro) .compareA (.routine 1)
      ((mkTimer .halfMicro).begin Hw.reset)
      [.start, .setPeriod .compareA 100, .attachInterrupt .overflow (.routine 2) true,
        .disableInterrupt .compareA]
      (by decide) (by decide)).1⟩

/-! ## `begin`, `start`, `stop` -/

/-- C14: from every prior state `begin()` leaves `TCCR1A`, `TCCR1B`, `TCNT1` and `TIMSK1` at
zero (timer stopped, count 0, the three interrupts disabled) and leaves the compare registers
and the routing slots as they were; it is idempotent. -/
theorem begin_resets (T : Timer) (s : Hw) :
    ((T.begin s).TCCR1A = 0 ∧ (T.begin s).TCCR1B = 0 ∧ (T.begin s).TCNT1 = 0
        ∧ (T.begin s).TIMSK1 = 0)
      ∧ (∀ k, (T.begin s).enabled k = false)
      ∧ ((T.begin s).OCR1A = s.OCR1A ∧ (T.begin s).OCR1B = s.OCR1B
        ∧ (T.begin s).isrCompareA = s.isrCompareA ∧ (T.begin s).isrCompareB = s.isrCompareB
        ∧ (T.begin s).isrOverflow = s.isrOverflow)
      ∧ T.begin (T.begin s) = T.begin s := by
  refine ⟨⟨rfl, rfl, rfl, rfl⟩, fun k => Nat.zero_testBit _, ⟨rfl, rfl, rfl, rfl, rfl⟩, rfl⟩

/-- C15: for every resolution and prior state, after `start()` the counter is 0, so `ticks()`
and `micros()` called at once return 0, and `TCCR1B` holds the prescale selector of the
descriptor bound at construction; the compare registers, `TCCR1A`, the interrupt-enable
flags and the routing slots are unchanged. -/
theorem start_zeroes_counter (r : Resolution) (s : Hw) :
    ((mkTimer r).start s).TCNT1 = 0
      ∧ ((mkTimer r).ticks ((mkTimer r).start s)).1 = 0
      ∧ ((mkTimer r).micros ((mkTimer r).start s)).1 = 0
      ∧ ((mkTimer r).start s).TCCR1B = (scaler r).bits
      ∧ (((mkTimer r).start s).OCR1A = s.OCR1A ∧ ((mkTimer r).start s).OCR1B = s.OCR1B
        ∧ ((mkTimer r).start s).TCCR1A = s.TCCR1A ∧ ((mkTimer r).start s).TIMSK1 = s.TIMSK1
        ∧ ((mkTimer r).start s).isrCompareA = s.isrCompareA
        ∧ ((mkTimer r).start s).isrCompareB = s.isrCompareB
        ∧ ((mkTimer r).start s).isrOverflow = s.isrOverflow) := by
  refine ⟨rfl, rfl, ?_, rfl, ⟨rfl, rfl, rfl, rfl, rfl, rfl, rfl⟩⟩
  simp [Timer.micros, Timer.ticks, Timer.start, noInterrupts, interrupts, ulong]

/-- C16: from every prior state `stop()` writes the stopped selector `scaler[none].bits`,
which is `0x00`, to `TCCR1B` and changes no other field (counter, registers, slots); with the
counter advancing only while the clock-select bits are not zero, two `ticks()` calls after
`stop()` return the same value, the count at the time of `stop()`, whatever time passes
before and between them; and `ticks()` does not change the counter. -/
theorem stop_freezes_counter (T : Timer) (s : Hw) (n m : Nat) :
    T.stop s = { s with TCCR1B := 0x00 }
      ∧ (scaler .none).bits = 0x00
      ∧ (T.ticks (hardwareElapse n (T.stop s))).1 = s.TCNT1
      ∧ (T.ticks (hardwareElapse m (T.ticks (hardwareElapse n (T.stop s))).2)).1
          = (T.ticks (hardwareElapse n (T.stop s))).1
      ∧ (∀ s' : Hw, (T.ticks s').2.TCNT1 = s'.TCNT1) := by
  have h1 : ∀ k, hardwareElapse k (T.stop s) = T.stop s := by
    intro k
    simp [hardwareElapse, Timer.stop, scaler]
  have h2 : ∀ k, hardwareElapse k (T.ticks (T.stop s)).2 = (T.ticks (T.stop s)).2 := by
    intro k
    simp [hardwareElapse, Timer.ticks, Timer.stop, scaler, noInterrupts, interrupts]
  refine ⟨rfl, rfl, ?_, ?_, fun _ => rfl⟩
  · rw [h1]; rfl
  · rw [h1, h2]; rfl

/-- The hardware model does count while a counting resolution is selected: after `start()`
the counter reads the number of ticks elapsed, modulo `2^16`. -/
theorem hardwareElapse_after_start (r : Resolution) (hr : r ≠ .none) (s : Hw) (n : Nat) :
    (hardwareElapse n ((mkTimer r).start s)).TCNT1 = n % 2 ^ 16 := by
  cases r <;> first
    | exact absurd rfl hr
    | simp [hardwareElapse, Timer.start, mkTimer, scaler, noInterrupts, interrupts, _BV, CS10,
        CS11, CS12]

/-! ## Critical sections -/

/-- The statements listed for a call have the effect of the call. -/
theorem execAll_code (T : Timer) (op : Op) (s : Hw) : execAll (T.code op) s = T.call op s := by
  cases op with
  | attachInterrupt type i enable => cases type <;> cases enable <;> rfl
  | begin => rfl
  | disableInterrupt r => cases r <;> rfl
  | enableInterrupt r => cases r <;> rfl
  | maxPeriod => rfl
  | micros => rfl
  | setPeriod reg x =>
    simp only [Timer.code, Timer.call, Timer.setPeriod]
    split_ifs <;> rfl
  | start => rfl
  | stop => rfl
  | ticks => rfl

/-- C17, as stated, fails: `stop()` called with global interrupts on writes `TCCR1B` without
suppressing them. -/
theorem stop_writes_unsuppressed :
    (mkTimer .halfMicro).code .stop = [.writeTCCR1B 0x00]
      ∧ execAll ((mkTimer .halfMicro).code .stop) (interrupts Hw.reset)
          = (mkTimer .halfMicro).stop (interrupts Hw.reset)
      ∧ writesSuppressed ((mkTimer .halfMicro).code .stop) (interrupts Hw.reset) = false := by
  decide

/-- C17, amended: with each call listed as its `noInterrupts()`, write and `interrupts()`
statements in program order, every write made by `attachInterrupt`, `begin`, `start` and
`setPeriod` happens while global interrupts are suppressed, whatever the flag was on entry;
the single write of `stop()` is made under the flag as it is on entry. -/
theorem writes_suppressed (T : Timer) (s : Hw) :
    (∀ type i enable, writesSuppressed (T.code (.attachInterrupt type i enable)) s = true
        ∧ execAll (T.code (.attachInterrupt type i enable)) s
            = T.attachInterrupt type i enable s)
      ∧ (writesSuppressed (T.code .begin) s = true ∧ execAll (T.code .begin) s = T.begin s)
      ∧ (writesSuppressed (T.code .start) s = true ∧ execAll (T.code .start) s = T.start s)
      ∧ (∀ reg x, writesSuppressed (T.code (.setPeriod reg x)) s = true
        ∧ execAll (T.code (.setPeriod reg x)) s = (T.setPeriod reg x s).2)
      ∧ (writesSuppressed (T.code .stop) s = !s.globalIrq
        ∧ execAll (T.code .stop) s = T.stop s) := by
  refine ⟨?_, ⟨?_, rfl⟩, ⟨?_, rfl⟩, ?_, ⟨?_, rfl⟩⟩
  · intro type i enable
    refine ⟨?_, execAll_code T (.attachInterrupt type i enable) s⟩
    cases type <;> cases enable <;>
      simp [Timer.code, writesSuppressed, Stmt.isWrite, Stmt.exec, noInterrupts]
  · simp [Timer.code, writesSuppressed, Stmt.isWrite, Stmt.exec, noInterrupts]
  · simp [Timer.code, writesSuppressed, Stmt.isWrite, Stmt.exec, noInterrupts]
  · intro reg x
    refine ⟨?_, execAll_code T (.setPeriod reg x) s⟩
    simp only [Timer.code]
    split_ifs <;> simp [writesSuppressed, Stmt.isWrite, Stmt.exec, noInterrupts]
  · simp [Timer.code, writesSuppressed, Stmt.isWrite]

/-! ## The routing table along a sequence of calls -/

/-- Only `attachInterrupt` on `k` changes the slot of `k`. -/
theorem call_slot (T : Timer) (k : Register) (op : Op) (s : Hw) :
    (T.call op s).slot k = lastAttached k (s.slot k) [op] := by
  cases op with
  | attachInterrupt r i enable =>
    cases r <;> cases k <;> cases enable <;> rfl
  | begin => cases k <;> rfl
  | disableInterrupt r => cases r <;> cases k <;> rfl
  | enableInterrupt r => cases r <;> cases k <;> rfl
  | maxPeriod => cases k <;> rfl
  | micros => cases k <;> rfl
  | setPeriod reg x =>
    have h : ∀ k', (T.setPeriod reg x s).2.slot k' = s.slot k' := by
      intro k'
      unfold Timer.setPeriod
      split_ifs <;> cases k' <;> rfl
    exact h k
  | start => cases k <;> rfl
  | stop => cases k <;> rfl
  | ticks => cases k <;> rfl

/-- The most recent attach of `op :: rest` is that of `rest`, started from that of `[op]`. -/
theorem lastAttached_cons (k : Register) (init : isr) (op : Op) (rest : List Op) :
    lastAttached k init (op :: rest) = lastAttached k (lastAttached k init [op]) rest := by
  cases op with
  | attachInterrupt r i enable =>
    by_cases h : r = k <;> simp [lastAttached, h]
  | _ => simp [lastAttached]

/-- After a sequence of calls the slot of `k` holds the most recent attach on `k`, or what
it held before. -/
theorem callAll_slot (T : Timer) (k : Register) (ops : List Op) :
    ∀ s : Hw, (T.callAll ops s).slot k = lastAttached k (s.slot k) ops := by
  induction ops with
  | nil => intro s; rfl
  | cons op rest ih =>
    intro s
    rw [lastAttached_cons, ← call_slot T k op s]
    exact ih (T.call op s)

/-- C18: the initial state has `dummyISR` in its three slots, and from every state with
`dummyISR` in its three slots, after every sequence of calls of the public methods, the slot
of each event kind `k` holds the callback of the most recent `attachInterrupt(k, ...)`, or
`dummyISR` if there was none; the vector of `k` invokes that slot content, once. -/
theorem routing_invariant (T : Timer) (ops : List Op) (s : Hw) (k : Register)
    (hs : ∀ k', s.slot k' = .dummyISR) :
    (∀ k', Hw.reset.slot k' = .dummyISR)
      ∧ (T.callAll ops s).slot k = lastAttached k .dummyISR ops
      ∧ dispatch k (T.callAll ops s) = [lastAttached k .dummyISR ops] := by
  have h := callAll_slot T k ops s
  rw [hs k] at h
  refine ⟨fun k' => by cases k' <;> rfl, h, ?_⟩
  rw [← h]
  cases k <;> rfl

/-- Witness of C18: from the initial state, after two attaches on compare A among other
calls, the compare-A vector invokes the second callback and the overflow vector `dummyISR`. -/
theorem routing_invariant_witness :
    (∀ k', Hw.reset.slot k' = .dummyISR)
      ∧ dispatch .compareA
          ((mkTimer .fourMicros).callAll
            [.begin, .attachInterrupt .compareA (.routine 1) true, .start,
              .attachInterrupt .compareA (.routine 2) false, .disableInterrupt .compareA, .stop]
            Hw.reset) = [.routine 2]
      ∧ dispatch .overflow
          ((mkTimer .fourMicros).callAll
            [.begin, .attachInterrupt .compareA (.routine 1) true, .start,
              .attachInterrupt .compareA (.routine 2) false, .disableInterrupt .compareA, .stop]
            Hw.reset) = [.dummyISR] :=
  ⟨fun k' => by cases k' <;> rfl,
   (routing_invariant (mkTimer .fourMicros)
      [.begin, .attachInterrupt .compareA (.routine 1) true, .start,
        .attachInterrupt .compareA (.routine 2) false, .disableInterrupt .compareA, .stop]
      Hw.reset .compareA (fun k' => by cases k' <;> rfl)).2.2,
   by decide⟩

/-! ## `getTicks` and `setPeriod` at the boundary -/

/-- C19: for each counting resolution and `x ≤ y` below `maxPeriod()`, `getTicks x` is the
exact `x * 2^factor` (left) or `floor (x / 2^factor)` (right), with no reduction modulo
`2^16`; it is below 65536, and `getTicks x ≤ getTicks y`. -/
theorem getTicks_exact_monotone (r : Resolution) (x y : Nat) (hxy : x ≤ y)
    (hy : y < (mkTimer r).maxPeriod) :
    (mkTimer r).getTicks x =
        (if (scaler r).shift = .left then x * 2 ^ (scaler r).factor
         else x / 2 ^ (scaler r).factor)
      ∧ (mkTimer r).getTicks x < 65536
      ∧ (mkTimer r).getTicks x ≤ (mkTimer r).getTicks y := by
  cases r <;>
    simp [mkTimer, Timer.getTicks, Timer.maxPeriod, scaler, ulong, ushort, Nat.shiftLeft_eq,
      Nat.shiftRight_eq_div_pow] at hy ⊢ <;> omega

/-- Witness of C19: `sixteenMicros`, 1000 and 2000 microseconds. -/
theorem getTicks_exact_monotone_witness :
    1000 ≤ 2000 ∧ 2000 < (mkTimer .sixteenMicros).maxPeriod
      ∧ (mkTimer .sixteenMicros).getTicks 1000 = 62
      ∧ (mkTimer .sixteenMicros).getTicks 1000 ≤ (mkTimer .sixteenMicros).getTicks 2000 :=
  ⟨by decide, by decide,
   (getTicks_exact_monotone .sixteenMicros 1000 2000 (by decide) (by decide)).1.trans
     (by decide),
   (getTicks_exact_monotone .sixteenMicros 1000 2000 (by decide) (by decide)).2.2⟩

/-- C20: for each counting resolution and `reg` one of `compareA`, `compareB`,
`setPeriod reg (maxPeriod())` is accepted, returns 0, and writes 0 into the selected compare
register: the exact tick count of `maxPeriod()` is 65536, which the 16-bit result drops. -/
theorem setPeriod_maxPeriod_writes_zero (r : Resolution) (reg : Register) (s : Hw)
    (hr : r ≠ .none) (hreg : reg = .compareA ∨ reg = .compareB) :
    ((mkTimer r).setPeriod reg (mkTimer r).maxPeriod s).1 = 0
      ∧ (if reg = .compareA then ((mkTimer r).setPeriod reg (mkTimer r).maxPeriod s).2.OCR1A
          else ((mkTimer r).setPeriod reg (mkTimer r).maxPeriod s).2.OCR1B) = 0
      ∧ (if (scaler r).shift = .left then (mkTimer r).maxPeriod * 2 ^ (scaler r).factor
          else (mkTimer r).maxPeriod / 2 ^ (scaler r).factor) = 65536
      ∧ (mkTimer r).getTicks (mkTimer r).maxPeriod = 0 := by
  have hg : (mkTimer r).getTicks (mkTimer r).maxPeriod = 0 := by
    cases r <;> first | exact absurd rfl hr | decide
  have hm : (if (scaler r).shift = .left then (mkTimer r).maxPeriod * 2 ^ (scaler r).factor
      else (mkTimer r).maxPeriod / 2 ^ (scaler r).factor) = 65536 := by
    cases r <;> first | exact absurd rfl hr | decide
  rcases hreg with rfl | rfl
  · rw [setPeriod_compareA_of_le (mkTimer r) (mkTimer r).maxPeriod s (Nat.le_refl _)]
    exact ⟨rfl, by simpa [interrupts, noInterrupts, Timer.maxPeriod] using hg, hm, hg⟩
  · rw [setPeriod_compareB_of_le (mkTimer r) (mkTimer r).maxPeriod s (Nat.le_refl _)]
    exact ⟨rfl, by simpa [interrupts, noInterrupts, Timer.maxPeriod] using hg, hm, hg⟩

/-- Witness of C20: `sixtyFourMicros`, compare register A, from a state whose `OCR1A` is
1234. -/
theorem setPeriod_maxPeriod_writes_zero_witness :
    Resolution.sixtyFourMicros ≠ Resolution.none
      ∧ ((mkTimer .sixtyFourMicros).setPeriod .compareA 4194304
          { Hw.reset with OCR1A := 1234 }).1 = 0
      ∧ ((mkTimer .sixtyFourMicros).setPeriod .compareA 4194304
          { Hw.reset with OCR1A := 1234 }).2.OCR1A = 0 :=
  ⟨by decide,
   (setPeriod_maxPeriod_writes_zero .sixtyFourMicros .compareA { Hw.reset with OCR1A := 1234 }
      (by decide) (Or.inl rfl)).1,
   (setPeriod_maxPeriod_writes_zero .sixtyFourMicros .compareA { Hw.reset with OCR1A := 1234 }
      (by decide) (Or.inl rfl)).2.1⟩

/-! ## The global interrupt flag -/

/-- C21: with the global interrupt-enable flag a field of the state, every call of
`attachInterrupt` (any of the three kinds), `begin`, `start`, `ticks`, `micros`, and of
`setPeriod` on `compareA` or `compareB` with an accepted period, returns with global
interrupts on whatever the flag was on entry; `stop`, `enableInterrupt`, `disableInterrupt`,
`maxPeriod` and a rejected `setPeriod` leave the flag as it was. -/
theorem globalIrq_after_call (T : Timer) (s : Hw) :
    ((∀ k cb enable, (T.attachInterrupt k cb enable s).globalIrq = true)
        ∧ (T.begin s).globalIrq = true
        ∧ (T.start s).globalIrq = true
        ∧ (T.ticks s).2.globalIrq = true
        ∧ (T.micros s).2.globalIrq = true
        ∧ (∀ reg x, reg = .compareA ∨ reg = .compareB → x ≤ T.maxPeriod →
            (T.setPeriod reg x s).2.globalIrq = true))
      ∧ ((T.stop s).globalIrq = s.globalIrq
        ∧ (∀ k, (T.enableInterrupt k s).globalIrq = s.globalIrq)
        ∧ (∀ k, (T.disableInterrupt k s).globalIrq = s.globalIrq)
        ∧ (T.call .maxPeriod s).globalIrq = s.globalIrq
        ∧ (∀ reg x, x > T.maxPeriod → (T.setPeriod reg x s).2.globalIrq = s.globalIrq)) := by
  refine ⟨⟨?_, rfl, rfl, rfl, rfl, ?_⟩, ⟨rfl, ?_, ?_, rfl, ?_⟩⟩
  · intro k cb enable
    cases k <;> cases enable <;> rfl
  · intro reg x hreg hx
    rcases hreg with rfl | rfl
    · rw [setPeriod_compareA_of_le T x s hx]; rfl
    · rw [setPeriod_compareB_of_le T x s hx]; rfl
  · intro k
    cases k <;> rfl
  · intro k
    cases k <;> rfl
  · intro reg x hx
    rw [setPeriod_of_gt T reg x s hx]

end AVRTimer1
